import Mathlib

/-!
Verification of the jet-lab program-libraries math crate.

The crate provides three fixed-point numeric value types plus a generic
checked-arithmetic layer:

* `Fp32` (src/math/src/fixed_point.rs): a 32.32 unsigned fixed-point value
  backed by a `u128`.  We model the backing integer as a `Nat` together with
  the invariant `v < 2^128`; plain `u128` arithmetic is modelled as modular
  (wrap-around) arithmetic mod `2^128`, matching the crate's documented
  overflow policy for this type, while the explicitly `checked_` operations
  are modelled with `Option`.
* `Number` (src/math/src/number.rs): a 192-bit unsigned value (`U192` from
  the `uint` crate) with `PRECISION = 50` and `ONE = 1 << 50`.  The `uint`
  arithmetic operators abort on overflow unconditionally, so `+`, `-`, `*`
  on the backing integer are modelled as `Option`-valued (with `none` for
  the abort); shifts discard overflowed bits, modelled as `% 2^192`.
* `Number128` (src/math/src/number_128.rs): a signed 128-bit decimal value
  with `PRECISION = 10` and `ONE = 10_000_000_000`, backed by an `i128`
  modelled as an `Int` with the invariant `MIN ≤ r ≤ MAX`.  Overflow of a
  raw `i128` operation aborts the program (the crate is built with overflow
  checks, as its own specification of negation failing at the signed
  minimum presumes), modelled as `Option.none`; `/` and `%` on `i128` are
  truncated division/remainder, i.e. `Int.tdiv` / `Int.tmod`.

`Option.none` throughout stands for a fatal abort of the source operation
(an explicit source-level abort, an arithmetic-overflow abort, or an
out-of-bounds table access).
-/

/-! ## Little-endian byte serialization helpers

`Number::into_bits`/`from_bits` reinterpret the backing `[u64; 3]` as
`[u8; 24]`, and `Number128::into_bits`/`from_bits` use `i128::to_ne_bytes`/
`from_ne_bytes`.  Both are fixed-width native-endianness byte codecs of the
backing integer; they are modelled here as little-endian byte lists (the
round-trip property is independent of the byte order chosen). -/

def bytesOfNatLE : Nat → Nat → List Nat
  | 0, _ => []
  | w + 1, v => (v % 256) :: bytesOfNatLE w (v / 256)

def natOfBytesLE : List Nat → Nat
  | [] => 0
  | b :: bs => b + 256 * natOfBytesLE bs

/-! ## String helpers shared by the two `Display` implementations -/

/-- Models `"0".repeat(width - s.len()) + &*s` (left zero padding).  The
source `usize` subtraction would abort if `s.len() > width`; on every input
reachable from the `Display` implementations the length is at most the
width, where Lean's truncating `Nat` subtraction agrees with it. -/
def zero_pad_left (w : Nat) (s : String) : String :=
  String.mk (List.replicate (w - s.length) '0') ++ s

/-- Models `str::trim_end_matches('0')`. -/
def trim_trailing_zeros (s : String) : String :=
  String.mk ((s.data.reverse.dropWhile (fun c => c = '0')).reverse)

/-! ## Fp32 (src/math/src/fixed_point.rs)

Raw value: `Nat` with invariant `v < 2^128`. -/

/-- `pub const FP32_ONE: u128 = 1 << 32;` -/
def FP32_ONE : Nat := 2 ^ 32

/-- `Fp32::ONE` -/
def Fp32.ONE : Nat := FP32_ONE

/-- `Fp32::ZERO` -/
def Fp32.ZERO : Nat := 0

/-- `Fp32::MAX` (`u128::MAX`) -/
def Fp32.MAX : Nat := 2 ^ 128 - 1

/-- `Fp32::as_u64`: `res = self.0 / Self::ONE.0`, `None` if `res` exceeds
`u64::MAX`, else `Some(res)`. -/
def Fp32.as_u64 (v : Nat) : Option Nat :=
  if 18446744073709551615 < v / FP32_ONE then none else some (v / FP32_ONE)

/-- `Fp32::as_u64_ciel`: `add_one = (!(self.0 as u32)).wrapping_add(1) as
u128` is the two's-complement negation of the low 32 bits, i.e.
`(2^32 - v % 2^32) % 2^32`; then `self.0.checked_add(add_one)` (`none` on
`u128` overflow) chained into `as_u64`. -/
def Fp32.as_u64_ciel (v : Nat) : Option Nat :=
  if v + (2 ^ 32 - v % 2 ^ 32) % 2 ^ 32 < 2 ^ 128 then
    Fp32.as_u64 (v + (2 ^ 32 - v % 2 ^ 32) % 2 ^ 32)
  else none

/-- `impl Add<Fp32> for Fp32`: raw `u128` addition (modular wrap-around,
the type's documented overflow policy). -/
def Fp32.add (a b : Nat) : Nat := (a + b) % 2 ^ 128

/-- `impl Mul<Fp32> for Fp32`: `self.0.mul(rhs.0).div(FP32_ONE)` on the raw
`u128`s (modular multiply, then integer division by the scale). -/
def Fp32.mul (a b : Nat) : Nat := (a * b) % 2 ^ 128 / FP32_ONE

/-! ## Number (src/math/src/number.rs)

Raw value: `Nat` with invariant `v < 2^192` (`U192`).  `PRECISION = 50`. -/

/-- `const ONE: U192 = U192([1 << PRECISION, 0, 0]);` i.e. `2^50`. -/
def Number.ONE : Nat := 2 ^ 50

/-- `Number::ZERO` -/
def Number.ZERO : Nat := 0

/-- `Number::MAX` (all 192 bits set) -/
def Number.MAX : Nat := 2 ^ 192 - 1

/-- `const U64_MAX: U192` = `u64::MAX`. -/
def Number.U64_MAX : Nat := 18446744073709551615

/-- `Number::ten_pow`: a lookup of `10^exponent` for `exponent ≤ 16`;
any larger exponent aborts (`no support for exponent`). -/
def Number.ten_pow (exponent : Nat) : Option Nat :=
  if exponent ≤ 16 then some (10 ^ exponent) else none

/-- `Number::from_decimal`: `prec_value = ten_pow(|exponent|)`,
`value_expanded = value << PRECISION` (the `uint` shift discards bits
above 192), then divide (negative exponent) or multiply (the `uint`
multiply aborts on overflow, hence the range guard). -/
def Number.from_decimal (value : Nat) (exponent : Int) : Option Nat :=
  match Number.ten_pow exponent.natAbs with
  | none => none
  | some p =>
    if exponent < 0 then some ((value <<< 50) % 2 ^ 192 / p)
    else if ((value <<< 50) % 2 ^ 192) * p < 2 ^ 192 then
      some (((value <<< 50) % 2 ^ 192) * p)
    else none

/-- `Number::as_decimal`: multiply (negative exponent; the `uint` multiply
aborts on overflow) or divide by `ten_pow(|exponent|)`, then `>> PRECISION`. -/
def Number.as_decimal (v : Nat) (exponent : Int) : Option Nat :=
  match Number.ten_pow exponent.natAbs with
  | none => none
  | some p =>
    if exponent < 0 then
      if v * p < 2 ^ 192 then some ((v * p) >>> 50) else none
    else some ((v / p) >>> 50)

/-- `Number::as_u64`: `extra_precision = PRECISION + exponent`; a negative
`extra_precision` reaches `self.0 << extra_precision`, whose shift-amount
conversion `U192::from(i32)` aborts on negatives; otherwise shift right and
abort if the result exceeds `U64_MAX`. -/
def Number.as_u64 (v : Nat) (e : Int) : Option Nat :=
  if 50 + e < 0 then none
  else if Number.U64_MAX < v >>> (50 + e).toNat then none
  else some (v >>> (50 + e).toNat)

/-- `Number::as_u64_ceil`: `prec_value = 1 << extra_precision` (aborting
for negative `extra_precision`, and yielding `0` when the shift discards
the bit), `target_rounded = prec_value - 1 + self.0` (the `uint`
subtraction aborts when `prec_value = 0`, the addition aborts past
`2^192`), then shift right and bound-check as in `as_u64`. -/
def Number.as_u64_ceil (v : Nat) (e : Int) : Option Nat :=
  if 50 + e < 0 then none
  else if (1 <<< (50 + e).toNat) % 2 ^ 192 = 0 then none
  else if 2 ^ 192 ≤ (1 <<< (50 + e).toNat) % 2 ^ 192 - 1 + v then none
  else if Number.U64_MAX < ((1 <<< (50 + e).toNat) % 2 ^ 192 - 1 + v) >>> (50 + e).toNat then none
  else some (((1 <<< (50 + e).toNat) % 2 ^ 192 - 1 + v) >>> (50 + e).toNat)

/-- `Number::as_u64_rounded`: `rounding = 1 << (extra_precision - 1)` when
`extra_precision > 0` else `0`; `target_rounded = rounding + self.0` (the
`uint` addition aborts past `2^192`), then the negative-shift abort, the
right shift and the bound check as in `as_u64`. -/
def Number.as_u64_rounded (v : Nat) (e : Int) : Option Nat :=
  if 2 ^ 192 ≤ (if 0 < 50 + e then (1 <<< (50 + e - 1).toNat) % 2 ^ 192 else 0) + v then none
  else if 50 + e < 0 then none
  else if Number.U64_MAX <
      ((if 0 < 50 + e then (1 <<< (50 + e - 1).toNat) % 2 ^ 192 else 0) + v) >>> (50 + e).toNat then
    none
  else some (((if 0 < 50 + e then (1 <<< (50 + e - 1).toNat) % 2 ^ 192 else 0) + v) >>> (50 + e).toNat)

/-- `impl Add<Number> for Number`: raw `U192` addition, which aborts on
overflow. -/
def Number.add (a b : Nat) : Option Nat :=
  if a + b < 2 ^ 192 then some (a + b) else none

/-- `impl Mul<Number> for Number`: `self.0.mul(rhs.0) >> PRECISION`; the
`U192` multiply aborts on overflow. -/
def Number.mul (a b : Nat) : Option Nat :=
  if a * b < 2 ^ 192 then some ((a * b) >>> 50) else none

/-- `Number::into_bits`: the 24 raw bytes of the backing 192-bit integer. -/
def Number.into_bits (v : Nat) : List Nat := bytesOfNatLE 24 v

/-- `Number::from_bits`: rebuild the backing integer from its 24 bytes. -/
def Number.from_bits (bits : List Nat) : Nat := natOfBytesLE bits

/-- The fractional part of `impl Display for Number`: `rem = self.0 % ONE`
rendered in decimal, left-padded with zeros to `PRECISION = 50` digits,
trailing zeros stripped, an empty result collapsing to `"0"`. -/
def Number.pretty_decimals (v : Nat) : String :=
  if trim_trailing_zeros (zero_pad_left 50 (Nat.repr (v % Number.ONE))) = "" then "0"
  else trim_trailing_zeros (zero_pad_left 50 (Nat.repr (v % Number.ONE)))

/-- `impl Display for Number`: `"0." ++ fraction` below `ONE`, otherwise
`(self.0 >> PRECISION) ++ "." ++ fraction`. -/
def Number.display (v : Nat) : String :=
  if v < Number.ONE then "0." ++ Number.pretty_decimals v
  else Nat.repr (v >>> 50) ++ "." ++ Number.pretty_decimals v

/-! ## Number128 (src/math/src/number_128.rs)

Raw value: `Int` with invariant `MIN ≤ r ≤ MAX` (`i128`).
`PRECISION = 10`. -/

/-- `const ONE: i128 = 10_000_000_000;` -/
def Number128.ONE : Int := 10000000000

/-- `Number128::ZERO` -/
def Number128.ZERO : Int := 0

/-- `Number128::MIN` = `i128::MIN` = `-2^127`. -/
def Number128.MIN : Int := -170141183460469231731687303715884105728

/-- `Number128::MAX` = `i128::MAX` = `2^127 - 1`. -/
def Number128.MAX : Int := 170141183460469231731687303715884105727

/-- `POWERS_OF_TEN[i]`: the table holds `10^i` for `i = 0..=12`; any other
index is an out-of-bounds access and aborts. -/
def Number128.powers_of_ten (i : Nat) : Option Int :=
  if i ≤ 12 then some (10 ^ i) else none

/-- Outcome type of `Number128::as_u64`: the returned `u64`, the
`"cannot convert to u64 due to overflow"` abort, or the
`"cannot convert to u64 because value < 0"` abort. -/
inductive Number128.U64Conv where
  | ok (n : Nat)
  | overflow_fault
  | negative_fault
deriving DecidableEq

/-- The tail of `Number128::as_u64` applied to the computed
`target_value`: overflow abort if it exceeds `u64::MAX`, negative abort if
it is below zero, otherwise the `u64` cast. -/
def Number128.u64_outcome (t : Int) : Number128.U64Conv :=
  if 18446744073709551615 < t then Number128.U64Conv.overflow_fault
  else if t < 0 then Number128.U64Conv.negative_fault
  else Number128.U64Conv.ok t.toNat

/-- `Number128::as_u64`: `extra_precision = PRECISION + exponent`,
`prec_value = POWERS_OF_TEN[|extra_precision|]` (abort past index 12);
for negative `extra_precision` the raw `i128` multiply `self.0 * prec_value`
aborts on overflow (the range guard), otherwise truncated division; then
the overflow / negative checks on `target_value`. -/
def Number128.as_u64 (v e : Int) : Option Number128.U64Conv :=
  match Number128.powers_of_ten (10 + e).natAbs with
  | none => none
  | some p =>
    if 10 + e < 0 then
      if Number128.MIN ≤ v * p ∧ v * p ≤ Number128.MAX then
        some (Number128.u64_outcome (v * p))
      else none
    else some (Number128.u64_outcome (Int.tdiv v p))

/-- `Number128::from_decimal`: divide (truncated) for negative
`extra_precision`, otherwise multiply on the raw `i128` (abort on
overflow). -/
def Number128.from_decimal (value exponent : Int) : Option Int :=
  match Number128.powers_of_ten (10 + exponent).natAbs with
  | none => none
  | some p =>
    if 10 + exponent < 0 then some (Int.tdiv value p)
    else if Number128.MIN ≤ value * p ∧ value * p ≤ Number128.MAX then some (value * p)
    else none

/-- `num_traits::CheckedAdd for Number128`: `i128::checked_add`. -/
def Number128.checked_add (a b : Int) : Option Int :=
  if Number128.MIN ≤ a + b ∧ a + b ≤ Number128.MAX then some (a + b) else none

/-- `num_traits::CheckedSub for Number128`: `i128::checked_sub`. -/
def Number128.checked_sub (a b : Int) : Option Int :=
  if Number128.MIN ≤ a - b ∧ a - b ≤ Number128.MAX then some (a - b) else none

/-- `impl Add<Number128> for Number128`:
`self.0.checked_add(rhs.0).unwrap()`. -/
def Number128.add (a b : Int) : Option Int := Number128.checked_add a b

/-- `impl Mul<Number128> for Number128`:
`self.0.checked_mul(rhs.0).unwrap().div(ONE)` (truncated division by the
scale). -/
def Number128.mul (a b : Int) : Option Int :=
  if Number128.MIN ≤ a * b ∧ a * b ≤ Number128.MAX then
    some (Int.tdiv (a * b) Number128.ONE)
  else none

/-- `impl Neg for Number128`: `-self.0` on the raw `i128`, which aborts
exactly when the result is unrepresentable (i.e. at `i128::MIN`). -/
def Number128.neg (r : Int) : Option Int :=
  if Number128.MIN ≤ -r ∧ -r ≤ Number128.MAX then some (-r) else none

/-- `Number128::into_bits`: the 16 raw bytes of the backing `i128`
(two's-complement pattern). -/
def Number128.into_bits (r : Int) : List Nat :=
  bytesOfNatLE 16 (r % 2 ^ 128).toNat

/-- `Number128::from_bits`: rebuild the `i128` from its 16 bytes
(values with the top bit set are negative). -/
def Number128.from_bits (bits : List Nat) : Int :=
  if natOfBytesLE bits < 2 ^ 127 then (natOfBytesLE bits : Int)
  else (natOfBytesLE bits : Int) - 2 ^ 128

/-- The mathematically scaled result named by the specification of
`Number128::as_u64` (spec wording, for comparison with the code): the raw
value multiplied or truncated-divided by the power of ten selected by
`PRECISION + exponent`, without the 128-bit width limitation. -/
def Number128.scaled_spec (v e : Int) : Int :=
  if 10 + e < 0 then v * 10 ^ (10 + e).natAbs
  else Int.tdiv v (10 ^ (10 + e).natAbs)

/-- The fractional part of `impl Display for Number128`:
`rem = self.0 % ONE` (truncated remainder, sign of the dividend), its
absolute value rendered in decimal, left-padded to `PRECISION = 10`
digits, trailing zeros stripped, an empty result collapsing to `"0"`. -/
def Number128.pretty_decimals (r : Int) : String :=
  if trim_trailing_zeros (zero_pad_left 10 (Nat.repr (Int.tmod r Number128.ONE).natAbs)) = "" then
    "0"
  else trim_trailing_zeros (zero_pad_left 10 (Nat.repr (Int.tmod r Number128.ONE).natAbs))

/-- `impl Display for Number128`: four bands on the raw value — below
`-ONE`, in `[-ONE, 0)` (rendered `-0.`), in `[0, ONE)` (rendered `0.`),
and at or above `ONE`. -/
def Number128.display (r : Int) : String :=
  if r < -Number128.ONE then
    Int.repr (Int.tdiv r Number128.ONE) ++ "." ++ Number128.pretty_decimals r
  else if r < 0 then "-0." ++ Number128.pretty_decimals r
  else if r < Number128.ONE then "0." ++ Number128.pretty_decimals r
  else Int.repr (Int.tdiv r Number128.ONE) ++ "." ++ Number128.pretty_decimals r

/-! ## Checked-arithmetic capability layer (src/math/src/traits.rs) -/

/-- The `NumericalError` codes of src/math/src/traits.rs. -/
inductive NumericalError where
  | AdditionOverflow
  | MultiplicationOverflow
  | SubtractionUnderflow
  | ZeroDivision
deriving DecidableEq

/-- `TryAddAssign::try_add_assign`, generic over a checked addition:
`*self = self.checked_add(&amount).ok_or(AdditionOverflow)?; Ok(())`.
The returned pair is (the function's result, the value of `*self` after
the call). -/
def try_add_assign {α : Type} (checked_add : α → α → Option α) (self amount : α) :
    Except NumericalError Unit × α :=
  match (checked_add self amount).elim
      (Except.error NumericalError.AdditionOverflow) Except.ok with
  | Except.ok v => (Except.ok (), v)
  | Except.error err => (Except.error err, self)

/-- `TrySubAssign::try_sub_assign`, generic over a checked subtraction:
`*self = self.checked_sub(&amount).ok_or(SubtractionUnderflow)?; Ok(())`. -/
def try_sub_assign {α : Type} (checked_sub : α → α → Option α) (self amount : α) :
    Except NumericalError Unit × α :=
  match (checked_sub self amount).elim
      (Except.error NumericalError.SubtractionUnderflow) Except.ok with
  | Except.ok v => (Except.ok (), v)
  | Except.error err => (Except.error err, self)

/-! ## Shared arithmetic helper lemmas -/

/-- Round trip of the little-endian byte codec: reassembling the `w` bytes
of `v` recovers `v` modulo `256^w`. -/
theorem natOfBytesLE_bytesOfNatLE (w v : Nat) :
    natOfBytesLE (bytesOfNatLE w v) = v % 256 ^ w := by
  induction w generalizing v with
  | zero => simp [bytesOfNatLE, natOfBytesLE, Nat.mod_one]
  | succ w ih =>
    simp only [bytesOfNatLE, natOfBytesLE, ih]
    have h1 : v % 256 ^ (w + 1) % 256 = v % 256 :=
      Nat.mod_mod_of_dvd v (dvd_pow_self 256 (Nat.succ_ne_zero w))
    have h2 : v % 256 ^ (w + 1) / 256 = v / 256 % 256 ^ w := by
      rw [pow_succ']
      exact Nat.mod_mul_right_div_self v 256 (256 ^ w)
    have h3 := Nat.div_add_mod (v % 256 ^ (w + 1)) 256
    omega

/-- The ceiling expression `(d - 1 + v) / d` exceeds the floor `v / d` by
at most one. -/
theorem div_add_pred_le_succ (d v : Nat) (hd : 0 < d) :
    (d - 1 + v) / d ≤ v / d + 1 := by
  have h1 := Nat.div_add_mod v d
  have h2 : v % d < d := Nat.mod_lt _ hd
  have h3 : d - 1 + v = d * (v / d) + (d - 1 + v % d) := by omega
  rw [h3, Nat.mul_add_div hd]
  have h4 : (d - 1 + v % d) / d ≤ 1 := by
    have h5 := (Nat.div_lt_iff_lt_mul hd).mpr (show d - 1 + v % d < 2 * d by omega)
    omega
  omega

/-- Characterization of the final overflow / negative / cast phase of
`Number128::as_u64` in terms of the computed target value. -/
theorem u64_outcome_characterization (t : Int) :
    (Number128.u64_outcome t = Number128.U64Conv.overflow_fault ↔ 18446744073709551615 < t) ∧
    (Number128.u64_outcome t = Number128.U64Conv.negative_fault ↔ t < 0) ∧
    (0 ≤ t → t ≤ 18446744073709551615 →
      Number128.u64_outcome t = Number128.U64Conv.ok t.toNat) := by
  unfold Number128.u64_outcome
  split_ifs with hov hneg
  · exact ⟨⟨fun _ => hov, fun _ => rfl⟩,
      ⟨fun h => absurd h (by simp), fun h => absurd hov (by omega)⟩,
      fun h1 h2 => absurd h2 (by omega)⟩
  · exact ⟨⟨fun h => absurd h (by simp), fun h => absurd h hov⟩,
      ⟨fun _ => hneg, fun _ => rfl⟩,
      fun h1 h2 => absurd h1 (by omega)⟩
  · exact ⟨⟨fun h => absurd h (by simp), fun h => absurd h hov⟩,
      ⟨fun h => absurd h (by simp), fun h => absurd h hneg⟩,
      fun h1 h2 => rfl⟩

/-! ## Claim theorems -/

/-- Claim C1 (evidence of the code defect): the claimed decimal round trip
`as_decimal(from_decimal(n, e), e) == n` already fails inside the supported
exponent range at `n = 1`, `e = -1`: the code evaluates the round trip to
`0`, not `1`.  `from_decimal(1, -1)` truncates `2^50 / 10`, and scaling
back up and shifting right by the binary `PRECISION = 50` floors the
result to zero. -/
theorem number_decimal_roundtrip_loses_value :
    (Number.from_decimal 1 (-1)).bind (fun v => Number.as_decimal v (-1)) = some 0 := by decide

/-- Claim C2 (evidence of the code defect): `from_decimal(1000, -4)` and
`from_decimal(1, -3)` do not render as `"0.1"` and `"0.001"`.  The
`Display` implementation decimal-pads the remainder modulo the binary
scale `ONE = 2^50` to 50 digits, producing 50-digit fraction strings; the
repository's own `to_string` test expects `"0.001"` and fails. -/
theorem number_display_decimal_mismatch :
    (Number.from_decimal 1 (-3)).map Number.display =
      some "0.00000000000000000000000000000000000001125899906842" ∧
    (Number.from_decimal 1000 (-4)).map Number.display =
      some "0.00000000000000000000000000000000000112589990684262" ∧
    (Number.from_decimal 1 (-3)).map Number.display ≠ some "0.001" ∧
    (Number.from_decimal 1000 (-4)).map Number.display ≠ some "0.1" := by
  refine ⟨by decide, by decide, by decide, by decide⟩

/-- Claim C3: the byte-level round trip holds for every representable
value of both decimal types: `from_bits (into_bits v) = v` for every
`Number` (192-bit) value and every `Number128` (`i128`) value. -/
theorem bits_roundtrip :
    (∀ v : Nat, v < 2 ^ 192 → Number.from_bits (Number.into_bits v) = v) ∧
    (∀ r : Int, Number128.MIN ≤ r → r ≤ Number128.MAX →
      Number128.from_bits (Number128.into_bits r) = r) := by
  constructor
  · intro v hv
    simp only [Number.into_bits, Number.from_bits, natOfBytesLE_bytesOfNatLE]
    have h1 : (256 : Nat) ^ 24 = 2 ^ 192 := by norm_num
    rw [h1]
    exact Nat.mod_eq_of_lt hv
  · intro r h1 h2
    simp only [Number128.MIN, Number128.MAX] at h1 h2
    simp only [Number128.into_bits, Number128.from_bits, natOfBytesLE_bytesOfNatLE]
    have e1 : (256 : Nat) ^ 16 = 340282366920938463463374607431768211456 := by norm_num
    have e2 : (2 : Nat) ^ 127 = 170141183460469231731687303715884105728 := by norm_num
    have e3 : (2 : Int) ^ 128 = 340282366920938463463374607431768211456 := by norm_num
    rw [e1, e2, e3]
    split <;> omega

/-- Claim C3 witness: the round trip evaluated at concrete values of both
types. -/
theorem bits_roundtrip_witness :
    Number.from_bits (Number.into_bits 42) = 42 ∧
    Number128.from_bits (Number128.into_bits (-7)) = -7 :=
  ⟨bits_roundtrip.1 42 (by norm_num), bits_roundtrip.2 (-7) (by decide) (by decide)⟩

/-- Claim C4 counterexample: `a * Type::ONE == a` fails at
`a = Number::MAX`: the backing `U192` multiplication by `ONE = 2^50`
overflows 192 bits and aborts, so the product is not `Number::MAX`. -/
theorem number_mul_one_identity_cex :
    Number.mul Number.MAX Number.ONE ≠ some Number.MAX := by decide

/-- Claim C4 (amended): `a + ZERO == a` holds for every value of each
type, and `a * ONE == a` holds whenever the backing multiplication
`a.raw * ONE.raw` stays within the backing width (Fp32: `2^128`; Number:
`2^192`; Number128: the `i128` range). -/
theorem identity_laws_in_range :
    (∀ a : Nat, a < 2 ^ 128 →
      Fp32.add a Fp32.ZERO = a ∧ (a * FP32_ONE < 2 ^ 128 → Fp32.mul a Fp32.ONE = a)) ∧
    (∀ a : Nat, a < 2 ^ 192 →
      Number.add a Number.ZERO = some a ∧
      (a * Number.ONE < 2 ^ 192 → Number.mul a Number.ONE = some a)) ∧
    (∀ a : Int, Number128.MIN ≤ a → a ≤ Number128.MAX →
      Number128.add a Number128.ZERO = some a ∧
      (Number128.MIN ≤ a * Number128.ONE → a * Number128.ONE ≤ Number128.MAX →
        Number128.mul a Number128.ONE = some a)) := by
  refine ⟨fun a ha => ⟨?_, fun hm => ?_⟩, fun a ha => ⟨?_, fun hm => ?_⟩,
    fun a h1 h2 => ⟨?_, fun hm1 hm2 => ?_⟩⟩
  · simp only [Fp32.add, Fp32.ZERO, Nat.add_zero]
    exact Nat.mod_eq_of_lt ha
  · simp only [Fp32.mul, Fp32.ONE] at hm ⊢
    rw [Nat.mod_eq_of_lt hm]
    exact Nat.mul_div_cancel a (by norm_num [FP32_ONE])
  · simp only [Number.add, Number.ZERO, Nat.add_zero, if_pos ha]
  · simp only [Number.mul, Number.ONE] at hm ⊢
    rw [if_pos hm, Nat.shiftRight_eq_div_pow, Nat.mul_div_cancel a (Nat.two_pow_pos 50)]
  · simp only [Number128.add, Number128.checked_add, Number128.ZERO, Int.add_zero]
    rw [if_pos ⟨h1, h2⟩]
  · simp only [Number128.mul]
    rw [if_pos ⟨hm1, hm2⟩, Int.mul_tdiv_cancel a (by decide : Number128.ONE ≠ 0)]

/-- Claim C4 witness: the amended identity laws evaluated at `a = 7` in
each of the three types. -/
theorem identity_laws_witness :
    Fp32.add 7 Fp32.ZERO = 7 ∧ Fp32.mul 7 Fp32.ONE = 7 ∧
    Number.add 7 Number.ZERO = some 7 ∧ Number.mul 7 Number.ONE = some 7 ∧
    Number128.add 7 Number128.ZERO = some 7 ∧ Number128.mul 7 Number128.ONE = some 7 := by
  have h1 := identity_laws_in_range.1 7 (by norm_num)
  have h2 := identity_laws_in_range.2.1 7 (by norm_num)
  have h3 := identity_laws_in_range.2.2 7 (by decide) (by decide)
  exact ⟨h1.1, h1.2 (by norm_num [FP32_ONE]), h2.1, h2.2 (by norm_num [Number.ONE]),
    h3.1, h3.2 (by decide) (by decide)⟩

/-- Claim C5 counterexample: at the in-range input `v = i128::MAX`,
`e = -11` (table index `1 ≤ 12`), the mathematically scaled result
`v * 10` exceeds `u64::MAX`, yet `as_u64` does not raise the descriptive
overflow fault: the raw `i128` scaling multiplication itself overflows and
the operation aborts before reaching the fault checks. -/
theorem n128_as_u64_claim_cex :
    Number128.MIN ≤ (170141183460469231731687303715884105727 : Int) ∧
    (170141183460469231731687303715884105727 : Int) ≤ Number128.MAX ∧
    ((10 : Int) + -11).natAbs ≤ 12 ∧
    18446744073709551615 < Number128.scaled_spec 170141183460469231731687303715884105727 (-11) ∧
    Number128.as_u64 170141183460469231731687303715884105727 (-11) ≠
      some Number128.U64Conv.overflow_fault := by
  refine ⟨by decide, by decide, by decide, by decide, by decide⟩

/-- Claim C5 (amended): for every `Number128` value and exponent in the
supported table range such that the internal power-of-ten scaling stays
within `i128`, `as_u64` raises the overflow fault exactly when the scaled
result exceeds `u64::MAX`, raises the distinct negative fault exactly when
the scaled result is negative, and otherwise returns the scaled result as
a `u64`. -/
theorem n128_as_u64_fault_conditions (v e : Int)
    (hv1 : Number128.MIN ≤ v) (hv2 : v ≤ Number128.MAX)
    (he : (10 + e).natAbs ≤ 12)
    (hs1 : Number128.MIN ≤ Number128.scaled_spec v e)
    (hs2 : Number128.scaled_spec v e ≤ Number128.MAX) :
    (Number128.as_u64 v e = some Number128.U64Conv.overflow_fault ↔
      18446744073709551615 < Number128.scaled_spec v e) ∧
    (Number128.as_u64 v e = some Number128.U64Conv.negative_fault ↔
      Number128.scaled_spec v e < 0) ∧
    (0 ≤ Number128.scaled_spec v e → Number128.scaled_spec v e ≤ 18446744073709551615 →
      Number128.as_u64 v e = some (Number128.U64Conv.ok (Number128.scaled_spec v e).toNat)) := by
  have hp : Number128.powers_of_ten (10 + e).natAbs = some (10 ^ (10 + e).natAbs) := by
    simp [Number128.powers_of_ten, he]
  by_cases hneg : 10 + e < 0
  · have hss : Number128.scaled_spec v e = v * 10 ^ (10 + e).natAbs := by
      simp [Number128.scaled_spec, hneg]
    rw [hss] at hs1 hs2 ⊢
    have hval : Number128.as_u64 v e =
        some (Number128.u64_outcome (v * 10 ^ (10 + e).natAbs)) := by
      simp only [Number128.as_u64, hp]
      rw [if_pos hneg, if_pos ⟨hs1, hs2⟩]
    rw [hval]
    simp only [Option.some_inj]
    exact u64_outcome_characterization _
  · have hss : Number128.scaled_spec v e = Int.tdiv v (10 ^ (10 + e).natAbs) := by
      simp [Number128.scaled_spec, hneg]
    rw [hss]
    have hval : Number128.as_u64 v e =
        some (Number128.u64_outcome (Int.tdiv v (10 ^ (10 + e).natAbs))) := by
      simp only [Number128.as_u64, hp]
      rw [if_neg hneg]
    rw [hval]
    simp only [Option.some_inj]
    exact u64_outcome_characterization _

/-- Claim C5 witness: the `u64::MAX + 1` scenario named by the claim.
`from_decimal(u64::MAX + 1, -3)` constructs `2^64 * 10^7`, and `as_u64`
at the matching exponent `-3` raises the overflow fault. -/
theorem n128_as_u64_fault_witness :
    Number128.from_decimal 18446744073709551616 (-3) = some 184467440737095516160000000 ∧
    Number128.as_u64 184467440737095516160000000 (-3) =
      some Number128.U64Conv.overflow_fault := by
  constructor
  · decide
  · exact ((n128_as_u64_fault_conditions 184467440737095516160000000 (-3)
      (by decide) (by decide) (by decide) (by decide) (by decide)).1).mpr (by decide)

/-- Claim C6: in the supported exponent range, whenever `as_u64`,
`as_u64_ceil` and `as_u64_rounded` all succeed, the ceiling and rounded
conversions are at least the truncating one, and the rounded conversion
differs from both by at most one unit. -/
theorem number_u64_rounding_relations (v : Nat) (e : Int) (hv : v < 2 ^ 192)
    (he1 : -16 ≤ e) (he2 : e ≤ 16) (a b c : Nat)
    (ha : Number.as_u64 v e = some a) (hb : Number.as_u64_ceil v e = some b)
    (hc : Number.as_u64_rounded v e = some c) :
    a ≤ b ∧ a ≤ c ∧ c ≤ b ∧ c ≤ a + 1 ∧ b ≤ c + 1 := by
  have hep : ¬(50 + e < 0) := by omega
  have hpos : (0 : Int) < 50 + e := by omega
  simp only [Number.as_u64, Number.as_u64_ceil, Number.as_u64_rounded,
    Nat.shiftRight_eq_div_pow, Nat.shiftLeft_eq, one_mul, if_neg hep, if_pos hpos] at ha hb hc
  rw [show ((50 : Int) + e - 1).toNat = (50 + e).toNat - 1 from by omega] at hc
  set k := (50 + e).toNat with hkdef
  have hk1 : 34 ≤ k := by omega
  have hk2 : k ≤ 66 := by omega
  have hm1 : (2 : Nat) ^ k % 2 ^ 192 = 2 ^ k :=
    Nat.mod_eq_of_lt (lt_of_le_of_lt (Nat.pow_le_pow_right (by norm_num) hk2) (by norm_num))
  have hm2 : (2 : Nat) ^ (k - 1) % 2 ^ 192 = 2 ^ (k - 1) :=
    Nat.mod_eq_of_lt (lt_of_le_of_lt
      (Nat.pow_le_pow_right (by norm_num) (show k - 1 ≤ 66 by omega)) (by norm_num))
  rw [hm1] at hb
  rw [hm2] at hc
  have ha' : a = v / 2 ^ k := by
    split at ha
    · exact absurd ha (by simp)
    · exact (Option.some_inj.mp ha).symm
  have hb' : b = (2 ^ k - 1 + v) / 2 ^ k := by
    split at hb
    · exact absurd hb (by simp)
    · split at hb
      · exact absurd hb (by simp)
      · split at hb
        · exact absurd hb (by simp)
        · exact (Option.some_inj.mp hb).symm
  have hc' : c = (2 ^ (k - 1) + v) / 2 ^ k := by
    split at hc
    · exact absurd hc (by simp)
    · split at hc
      · exact absurd hc (by simp)
      · exact (Option.some_inj.mp hc).symm
  subst ha' hb' hc'
  have hd : (0 : Nat) < 2 ^ k := Nat.two_pow_pos k
  have hdd : (2 : Nat) ^ k = 2 * 2 ^ (k - 1) := by
    conv_lhs => rw [show k = k - 1 + 1 from by omega]
    rw [pow_succ, Nat.mul_comm]
  have hh : (0 : Nat) < 2 ^ (k - 1) := Nat.two_pow_pos _
  have f1 : v / 2 ^ k ≤ (2 ^ k - 1 + v) / 2 ^ k := Nat.div_le_div_right (by omega)
  have f2 : v / 2 ^ k ≤ (2 ^ (k - 1) + v) / 2 ^ k := Nat.div_le_div_right (by omega)
  have f3 : (2 ^ (k - 1) + v) / 2 ^ k ≤ (2 ^ k - 1 + v) / 2 ^ k := Nat.div_le_div_right (by omega)
  have f4 : (2 ^ k - 1 + v) / 2 ^ k ≤ v / 2 ^ k + 1 := div_add_pred_le_succ _ _ hd
  exact ⟨f1, f2, f3, by omega, by omega⟩

/-- Claim C6 witness: at the value `1.5` (raw `3 * 2^49`) with exponent
`0`, the truncating, ceiling and rounded conversions give `1`, `2`, `2`,
satisfying the claimed relations. -/
theorem number_u64_rounding_witness :
    Number.as_u64 1688849860263936 0 = some 1 ∧
    Number.as_u64_ceil 1688849860263936 0 = some 2 ∧
    Number.as_u64_rounded 1688849860263936 0 = some 2 ∧
    (1 ≤ 2 ∧ 1 ≤ 2 ∧ 2 ≤ 2 ∧ 2 ≤ 1 + 1 ∧ 2 ≤ 2 + 1) := by
  refine ⟨by decide, by decide, by decide, ?_⟩
  exact number_u64_rounding_relations 1688849860263936 0 (by norm_num) (by norm_num)
    (by norm_num) 1 2 2 (by decide) (by decide) (by decide)

/-- Claim C7: `Fp32::as_u64_ciel` agrees with `as_u64` when the low 32
bits are zero, and otherwise — when the internal rounding addition and
the 64-bit narrowing both succeed — returns the truncated integer part
plus one. -/
theorem fp32_ciel_semantics (v : Nat) (hv : v < 2 ^ 128) :
    (v % FP32_ONE = 0 → Fp32.as_u64_ciel v = Fp32.as_u64 v) ∧
    (v % FP32_ONE ≠ 0 → v + (FP32_ONE - v % FP32_ONE) < 2 ^ 128 →
      v / FP32_ONE + 1 ≤ 18446744073709551615 →
      Fp32.as_u64_ciel v = some (v / FP32_ONE + 1)) := by
  have p32 : (2 : Nat) ^ 32 = 4294967296 := by norm_num
  have p128 : (2 : Nat) ^ 128 = 340282366920938463463374607431768211456 := by norm_num
  simp only [FP32_ONE, Fp32.as_u64_ciel, Fp32.as_u64, p32, p128] at hv ⊢
  constructor
  · intro hz
    have haz : (4294967296 - v % 4294967296) % 4294967296 = 0 := by omega
    rw [haz, Nat.add_zero, if_pos hv]
  · intro hnz hadd hcap
    have key : v + (4294967296 - v % 4294967296) % 4294967296 =
        4294967296 * (v / 4294967296 + 1) := by omega
    have hq : 4294967296 * (v / 4294967296 + 1) / 4294967296 = v / 4294967296 + 1 := by omega
    rw [key, if_pos (by omega), hq, if_neg (by omega)]

/-- Claim C7 witness: at `v = 2^32 + 5` (nonzero fraction), the ceiling
conversion returns the truncated part `1` plus one. -/
theorem fp32_ciel_witness : Fp32.as_u64_ciel 4294967301 = some 2 := by
  have h := (fp32_ciel_semantics 4294967301 (by norm_num)).2 (by decide) (by decide) (by decide)
  rw [h]
  decide

/-- Claim C8: negation of a `Number128` succeeds with the negated backing
integer for every representable value except `Number128::MIN`, and fails
exactly at `Number128::MIN`. -/
theorem n128_neg_total_except_min (a : Int)
    (h1 : Number128.MIN ≤ a) (h2 : a ≤ Number128.MAX) :
    (a ≠ Number128.MIN → Number128.neg a = some (-a)) ∧
    (a = Number128.MIN → Number128.neg a = none) := by
  simp only [Number128.MIN, Number128.MAX] at h1 h2
  constructor
  · intro hne
    simp only [Number128.MIN] at hne
    simp only [Number128.neg, Number128.MIN, Number128.MAX]
    rw [if_pos (by omega)]
  · intro heq
    simp only [Number128.MIN] at heq
    simp only [Number128.neg, Number128.MIN, Number128.MAX]
    rw [if_neg (by omega)]

/-- Claim C8 witness: negation succeeds at `5` and fails at
`Number128::MIN`. -/
theorem n128_neg_witness :
    Number128.neg 5 = some (-5) ∧ Number128.neg Number128.MIN = none :=
  ⟨(n128_neg_total_except_min 5 (by decide) (by decide)).1 (by decide),
   (n128_neg_total_except_min Number128.MIN (by decide) (by decide)).2 rfl⟩

/-- Claim C9: for any checked addition/subtraction, `try_add_assign`
stores the checked sum and returns success when it is representable, and
otherwise returns the overflow error with the stored value unchanged;
`try_sub_assign` behaves likewise with the underflow error. -/
theorem try_assign_mutation (α : Type) (checked_add checked_sub : α → α → Option α) (x a : α) :
    (∀ s, checked_add x a = some s → try_add_assign checked_add x a = (Except.ok (), s)) ∧
    (checked_add x a = none →
      try_add_assign checked_add x a = (Except.error NumericalError.AdditionOverflow, x)) ∧
    (∀ s, checked_sub x a = some s → try_sub_assign checked_sub x a = (Except.ok (), s)) ∧
    (checked_sub x a = none →
      try_sub_assign checked_sub x a = (Except.error NumericalError.SubtractionUnderflow, x)) := by
  refine ⟨fun s hs => ?_, fun hn => ?_, fun s hs => ?_, fun hn => ?_⟩
  · simp [try_add_assign, hs]
  · simp [try_add_assign, hn]
  · simp [try_sub_assign, hs]
  · simp [try_sub_assign, hn]

/-- Claim C9 witness: with `Number128`'s checked operations, an in-range
addition mutates to the sum, and an out-of-range subtraction reports
underflow and leaves the value unchanged. -/
theorem try_assign_mutation_witness :
    try_add_assign Number128.checked_add 3 4 = (Except.ok (), (7 : Int)) ∧
    try_sub_assign Number128.checked_sub Number128.MIN 1 =
      (Except.error NumericalError.SubtractionUnderflow, Number128.MIN) := by
  constructor
  · exact (try_assign_mutation Int Number128.checked_add Number128.checked_sub 3 4).1 7 (by decide)
  · exact (try_assign_mutation Int Number128.checked_add Number128.checked_sub
      Number128.MIN 1).2.2.2 (by decide)

/-- Claim C10: every `Number128` with raw value in `[-ONE, 0)` — the
boundary `-ONE` (the value `-1.0`) included — renders as `"-0."` followed
by the fraction digits; in particular `-1.0` renders as `"-0.0"`, not
`"-1.0"`. -/
theorem n128_display_negative_band (r : Int)
    (h1 : -Number128.ONE ≤ r) (h2 : r < 0) :
    Number128.display r = "-0." ++ Number128.pretty_decimals r ∧
    Number128.display (-Number128.ONE) = "-0.0" ∧
    Number128.display (-Number128.ONE) ≠ "-1.0" := by
  refine ⟨?_, by decide, by decide⟩
  simp only [Number128.display]
  rw [if_neg (not_lt.mpr h1), if_pos h2]

/-- Claim C10 witness: the band theorem evaluated at the raw value `-5`
(the value `-5 * 10^-10`). -/
theorem n128_display_negative_witness :
    Number128.display (-5) = "-0." ++ Number128.pretty_decimals (-5) ∧
    Number128.display (-5) = "-0.0000000005" := by
  refine ⟨(n128_display_negative_band (-5) (by decide) (by decide)).1, by decide⟩
